import Mathlib

/-!
Shallow embedding of the provenance / content-addressed storage core of the
`language-based-data-science` backend, and verification of the frozen claims
about it.

Embedded source files:
  * backend/app/infra/meta.py       (lineage graph store: Artifact, Node,
                                     SessionRow, _normalize_parents,
                                     _normalize_op_params, _hash_node,
                                     list_history, set_session_head,
                                     get_session_head, insert_artifact,
                                     insert_node, get_node_by_artifact)
  * backend/app/infra/artifacts.py  (content store: _dst_for, store_parquet,
                                     store_file)
  * backend/app/api/history.py      (get_history limit validation)
  * backend/app/api/checkout.py     (checkout)
  * backend/app/api/artifacts.py    (_safe_under, fetch_artifact)
  * backend/app/api/query_sql.py    (_infer_parent_node_id)
  * backend/app/api/plot.py         (parent inference via get_node_by_artifact)

Modelling conventions:
  * The SQLite-backed tables are lists of rows kept in insertion order;
    `db.get(Model, pk)` is `List.find?` on the primary-key column, an
    unordered `select(...).first()` is `List.find?` in insertion (rowid)
    order, and a primary-key `IntegrityError` occurs exactly when a row with
    the same key is already present.  Concurrency is modelled by
    sequentialisation: the loser of a racing pair is the call that runs
    second and observes the winner's committed row.
  * Python `sorted` on strings (code-point lexicographic) is modelled by an
    insertion sort `sortLe` with the code-point comparison `strLe`.
  * `json.dumps(x, separators=(",",":"), sort_keys=True, default=str)` is
    modelled for the shapes that actually occur (strings, lists of strings,
    and string-keyed dicts of strings) including Python's `ensure_ascii`
    escaping.
  * `hashlib.sha256(...).hexdigest()` is external library code; it is
    modelled by injective stand-ins (`sha256Model` on payload strings,
    `sha256HexOfBytes` on byte lists).  Every property proved here depends
    only on the digest being a deterministic function of its input; the
    spec explicitly assumes collision resistance, which the injective models
    realise.
  * Wall-clock time (`int(time.time())`) is an explicit `now : Nat`
    parameter.
-/

/-! ## Generic list sorting (model of Python `sorted`) -/

/-- Insert `a` into `l` before the first element `b` with `le a b`. -/
def insertLe {α : Type} (le : α → α → Bool) (a : α) : List α → List α
  | [] => [a]
  | b :: bs => if le a b then a :: b :: bs else b :: insertLe le a bs

/-- Insertion sort with comparison `le`; models Python `sorted(..)` (the
claims proved here never depend on the order of ties). -/
def sortLe {α : Type} (le : α → α → Bool) : List α → List α
  | [] => []
  | a :: as => insertLe le a (sortLe le as)

theorem insertLe_perm {α : Type} (le : α → α → Bool) (a : α) (l : List α) :
    (insertLe le a l).Perm (a :: l) := by
  induction l with
  | nil => exact List.Perm.refl _
  | cons b bs ih =>
    by_cases h : le a b
    · simp [insertLe, h]
    · simp only [insertLe, h, if_neg]
      exact (List.Perm.cons b ih).trans (List.Perm.swap a b bs)

theorem sortLe_perm {α : Type} (le : α → α → Bool) (l : List α) :
    (sortLe le l).Perm l := by
  induction l with
  | nil => exact List.Perm.refl _
  | cons a as ih =>
    exact (insertLe_perm le a (sortLe le as)).trans (List.Perm.cons a ih)

theorem mem_sortLe {α : Type} {le : α → α → Bool} {x : α} {l : List α} :
    x ∈ sortLe le l ↔ x ∈ l :=
  (sortLe_perm le l).mem_iff

theorem nodup_sortLe {α : Type} {le : α → α → Bool} {l : List α}
    (h : l.Nodup) : (sortLe le l).Nodup :=
  ((sortLe_perm le l).nodup_iff).mpr h

theorem pairwise_insertLe {α : Type} {le : α → α → Bool}
    (htr : ∀ a b c, le a b = true → le b c = true → le a c = true)
    (hto : ∀ a b, le a b = true ∨ le b a = true)
    {l : List α} (a : α) (hl : l.Pairwise (fun x y => le x y = true)) :
    (insertLe le a l).Pairwise (fun x y => le x y = true) := by
  induction l with
  | nil => simp [insertLe]
  | cons b bs ih =>
    rcases List.pairwise_cons.mp hl with ⟨hb, hbs⟩
    by_cases h : le a b
    · simp only [insertLe, h, if_pos]
      refine List.pairwise_cons.mpr ⟨?_, hl⟩
      intro x hx
      rcases List.mem_cons.mp hx with hx | hx
      · rw [hx]; exact h
      · exact htr a b x h (hb x hx)
    · simp only [insertLe, h, if_neg]
      refine List.pairwise_cons.mpr ⟨?_, ih hbs⟩
      intro x hx
      have hx' := (insertLe_perm le a bs).mem_iff.mp hx
      rcases List.mem_cons.mp hx' with hx' | hx'
      · rw [hx']
        rcases hto b a with h' | h'
        · exact h'
        · exact absurd h' (by simpa using h)
      · exact hb x hx'

theorem pairwise_sortLe {α : Type} {le : α → α → Bool}
    (htr : ∀ a b c, le a b = true → le b c = true → le a c = true)
    (hto : ∀ a b, le a b = true ∨ le b a = true)
    (l : List α) : (sortLe le l).Pairwise (fun x y => le x y = true) := by
  induction l with
  | nil => simp [sortLe]
  | cons a as ih => exact pairwise_insertLe htr hto a ih

theorem sortLe_eq_of_pairwise {α : Type} {le : α → α → Bool} {l : List α}
    (h : l.Pairwise (fun x y => le x y = true)) : sortLe le l = l := by
  induction l with
  | nil => rfl
  | cons a as ih =>
    rcases List.pairwise_cons.mp h with ⟨ha, has⟩
    have : sortLe le (a :: as) = insertLe le a as := by
      simp [sortLe, ih has]
    rw [this]
    cases as with
    | nil => rfl
    | cons b bs => simp [insertLe, ha b (by simp)]

/-! ## Code-point string comparison (model of Python `<=` on `str`) -/

/-- Python string comparison on the underlying code points. -/
def strLeB : List Char → List Char → Bool
  | [], _ => true
  | _ :: _, [] => false
  | a :: as, b :: bs => if a = b then strLeB as bs else decide (a < b)

def strLe (a b : String) : Bool := strLeB a.data b.data

theorem strLeB_total : ∀ l₁ l₂, strLeB l₁ l₂ = true ∨ strLeB l₂ l₁ = true := by
  intro l₁
  induction l₁ with
  | nil => intro l₂; left; rfl
  | cons a as ih =>
    intro l₂
    cases l₂ with
    | nil => right; rfl
    | cons b bs =>
      by_cases hab : a = b
      · subst hab
        rcases ih bs with h | h
        · left; simpa [strLeB] using h
        · right; simpa [strLeB] using h
      · rcases lt_trichotomy a b with h | h | h
        · left; simp [strLeB, hab, h]
        · exact absurd h hab
        · right; simp [strLeB, Ne.symm hab, h]

theorem strLeB_trans : ∀ l₁ l₂ l₃, strLeB l₁ l₂ = true → strLeB l₂ l₃ = true →
    strLeB l₁ l₃ = true := by
  intro l₁
  induction l₁ with
  | nil => intro l₂ l₃ _ _; rfl
  | cons a as ih =>
    intro l₂ l₃ h12 h23
    cases l₂ with
    | nil => simp [strLeB] at h12
    | cons b bs =>
      cases l₃ with
      | nil => simp [strLeB] at h23
      | cons c cs =>
        by_cases hab : a = b
        · subst hab
          by_cases hbc : a = c
          · subst hbc
            simp only [strLeB, if_pos rfl] at h12 h23 ⊢
            exact ih bs cs h12 h23
          · simp only [strLeB, if_neg hbc] at h23 ⊢
            exact h23
        · by_cases hbc : b = c
          · subst hbc
            simp only [strLeB, if_neg hab] at h12 ⊢
            exact h12
          · simp only [strLeB, if_neg hab, if_neg hbc] at h12 h23
            have hac : a < c := lt_trans (of_decide_eq_true h12) (of_decide_eq_true h23)
            have : a ≠ c := ne_of_lt hac
            simp [strLeB, this, hac]

theorem strLeB_antisymm : ∀ l₁ l₂, strLeB l₁ l₂ = true → strLeB l₂ l₁ = true →
    l₁ = l₂ := by
  intro l₁
  induction l₁ with
  | nil =>
    intro l₂ _ h
    cases l₂ with
    | nil => rfl
    | cons b bs => simp [strLeB] at h
  | cons a as ih =>
    intro l₂ h12 h21
    cases l₂ with
    | nil => simp [strLeB] at h12
    | cons b bs =>
      by_cases hab : a = b
      · subst hab
        simp only [strLeB, if_pos rfl] at h12 h21
        rw [ih bs h12 h21]
      · simp only [strLeB, if_neg hab, if_neg (Ne.symm hab)] at h12 h21
        exact absurd (of_decide_eq_true h21) (not_lt_of_lt (of_decide_eq_true h12))

theorem strLe_total (a b : String) : strLe a b = true ∨ strLe b a = true :=
  strLeB_total a.data b.data

theorem strLe_trans (a b c : String) (h₁ : strLe a b = true)
    (h₂ : strLe b c = true) : strLe a c = true :=
  strLeB_trans a.data b.data c.data h₁ h₂

theorem strLe_antisymm {a b : String} (h₁ : strLe a b = true)
    (h₂ : strLe b a = true) : a = b := by
  cases a with
  | mk da =>
    cases b with
    | mk db =>
      have : da = db := strLeB_antisymm da db h₁ h₂
      rw [this]

/-- Sort a list of strings in Python `sorted` order. -/
def sortStrings (l : List String) : List String := sortLe strLe l

theorem sortStrings_sorted (l : List String) :
    (sortStrings l).Pairwise (fun x y => strLe x y = true) :=
  pairwise_sortLe (fun a b c => strLe_trans a b c) strLe_total l

/-- Two duplicate-free lists with the same members sort identically. -/
theorem sortStrings_eq_of_same_mem {l₁ l₂ : List String}
    (h₁ : l₁.Nodup) (h₂ : l₂.Nodup) (hm : ∀ a, a ∈ l₁ ↔ a ∈ l₂) :
    sortStrings l₁ = sortStrings l₂ := by
  have hp : l₁.Perm l₂ := (List.perm_ext_iff_of_nodup h₁ h₂).mpr hm
  have hps : (sortStrings l₁).Perm (sortStrings l₂) :=
    (sortLe_perm strLe l₁).trans (hp.trans (sortLe_perm strLe l₂).symm)
  haveI : IsAntisymm String (fun x y => strLe x y = true) :=
    ⟨fun _ _ h₁ h₂ => strLe_antisymm h₁ h₂⟩
  exact List.eq_of_perm_of_sorted hps (sortStrings_sorted l₁) (sortStrings_sorted l₂)

/-! ## JSON serialization (model of `json.dumps(.., separators=(",",":"), sort_keys=True)`) -/

def hexDigitChar (n : Nat) : Char :=
  if n < 10 then Char.ofNat (48 + n) else Char.ofNat (87 + n)

/-- Four lowercase hex digits, as produced by Python's `\uXXXX` escapes. -/
def hex4 (n : Nat) : String :=
  String.mk [hexDigitChar (n / 4096 % 16), hexDigitChar (n / 256 % 16),
             hexDigitChar (n / 16 % 16), hexDigitChar (n % 16)]

/-- Python `json.dumps` escaping of a single character (`ensure_ascii=True`). -/
def jsonEscapeChar (c : Char) : String :=
  if c = '"' then "\\\""
  else if c = '\\' then "\\\\"
  else if c = '\n' then "\\n"
  else if c = '\r' then "\\r"
  else if c = '\t' then "\\t"
  else if c.toNat = 8 then "\\b"
  else if c.toNat = 12 then "\\f"
  else if c.toNat < 32 then "\\u" ++ hex4 c.toNat
  else if c.toNat < 127 then String.mk [c]
  else if c.toNat < 65536 then "\\u" ++ hex4 c.toNat
  else
    "\\u" ++ hex4 (55296 + (c.toNat - 65536) / 1024) ++
    "\\u" ++ hex4 (56320 + (c.toNat - 65536) % 1024)

/-- JSON encoding of a Python `str`. -/
def jsonStr (s : String) : String :=
  "\"" ++ String.join (s.data.map jsonEscapeChar) ++ "\""

def joinSep (sep : String) : List String → String
  | [] => ""
  | [x] => x
  | x :: y :: xs => x ++ sep ++ joinSep sep (y :: xs)

/-- JSON encoding of a list of strings with `separators=(",", ":")`. -/
def jsonStrList (l : List String) : String :=
  "[" ++ joinSep "," (l.map jsonStr) ++ "]"

/-- A Python `dict[str, str]` is modelled as an association list in insertion
order; lookup of a key returns the value of its first (hence, for a real
dict, only) occurrence. -/
abbrev PyDict := List (String × String)

def jsonOptVal : Option String → String
  | some v => jsonStr v
  | none => "null"

/-- JSON encoding of a string-keyed dict with `sort_keys=True` and
`separators=(",", ":")`: keys are emitted in sorted order, each with the
value `lookup` finds for it. -/
def jsonDict (d : PyDict) : String :=
  "\x7b" ++
    joinSep ","
      ((sortStrings (d.map Prod.fst).dedup).map
        (fun k => jsonStr k ++ ":" ++ jsonOptVal (d.lookup k))) ++
  "\x7d"

/-! ## meta.py: canonicalization and node hashing -/

/-- Source `_normalize_parents(parents)`: `sorted({p for p in (parents or []) if p})`
— non-empty parents, deduplicated, in sorted order. -/
def normalize_parents (parents : List String) : List String :=
  sortStrings ((parents.filter (fun p => p != "")).dedup)

/-- Source `_normalize_op_params(op_params)`: `op_params or {}` — the identity on
our dict model (an absent/None dict is the empty association list). -/
def normalize_op_params (op_params : PyDict) : PyDict := op_params

/-- The canonical serialized payload of `_hash_node`:
`json.dumps({"s": sid, "p": parents, "t": op_type, "o": op_params},
separators=(",",":"), sort_keys=True, default=str)`; with `sort_keys` the
top-level keys are emitted in the order `o`, `p`, `s`, `t`. -/
def hashPayload (session_id : String) (parents : List String)
    (op_type : String) (op_params : PyDict) : String :=
  "\x7b\"o\":" ++ jsonDict op_params ++
  ",\"p\":" ++ jsonStrList parents ++
  ",\"s\":" ++ jsonStr session_id ++
  ",\"t\":" ++ jsonStr op_type ++ "\x7d"

/-- Model of `hashlib.sha256(s.encode()).hexdigest()`.  SHA-256 is external
library code; all properties proved here depend only on the digest being a
deterministic function of the payload, plus the spec's assumed collision
resistance (realised by this model being injective). -/
def sha256Model (s : String) : String := s

/-- Source `_hash_node(session_id, parents, op_type, op_params)`. -/
def hash_node (session_id : String) (parents : List String)
    (op_type : String) (op_params : PyDict) : String :=
  sha256Model
    (hashPayload session_id (normalize_parents parents) op_type
      (normalize_op_params op_params))

/-! ## meta.py: table rows and the metadata database -/

structure SessionRow where
  session_id : String
  head_node_id : Option String
  updated_at : Nat
deriving DecidableEq, Repr

structure ArtifactRow where
  artifact_id : String
  kind : String
  format : String
  uri : String
  bytes : Nat
  rows : Nat
  cols : Nat
  created_at : Nat
  session_id : String
deriving DecidableEq, Repr

structure NodeRow where
  node_id : String
  op_type : String
  op_params : String
  parent_node_ids : String
  primary_artifact_id : Option String
  created_at : Nat
  session_id : String
deriving DecidableEq, Repr

/-- The SQLite metadata database: one list of rows per table, in insertion
(rowid) order. -/
structure MetaDB where
  sessions : List SessionRow
  artifacts : List ArtifactRow
  nodes : List NodeRow
deriving DecidableEq, Repr

/-- Source `db.get(Node, node_id)`: primary-key lookup. -/
def getNode (db : MetaDB) (node_id : String) : Option NodeRow :=
  db.nodes.find? (fun n => n.node_id == node_id)

/-- Source `db.get(Artifact, artifact_id)`: primary-key lookup. -/
def getArtifact (db : MetaDB) (artifact_id : String) : Option ArtifactRow :=
  db.artifacts.find? (fun a => a.artifact_id == artifact_id)

/-- Source `db.get(SessionRow, session_id)`: primary-key lookup. -/
def getSessionRow (db : MetaDB) (session_id : String) : Option SessionRow :=
  db.sessions.find? (fun s => s.session_id == session_id)

/-! ## meta.py: history, head, inserts, lookups -/

/-- Comparison used to model `ORDER BY created_at DESC` (ties are in an
order the SQL backend does not specify; the model picks one). -/
def byCreatedDesc (a b : NodeRow) : Bool := b.created_at ≤ a.created_at

/-- Source `list_history(session_id, limit)`: nodes of the session, most recently
created first, truncated to `limit` rows. -/
def list_history (db : MetaDB) (session_id : String) (limit : Nat) :
    List NodeRow :=
  (sortLe byCreatedDesc (db.nodes.filter (fun n => n.session_id == session_id))).take limit

/-- Source `set_session_head(session_id, node_id)`: update the session row in
place, creating it if absent; returns the (new) row. -/
def set_session_head (db : MetaDB) (now : Nat) (session_id node_id : String) :
    SessionRow × MetaDB :=
  match getSessionRow db session_id with
  | none =>
    let row : SessionRow :=
      { session_id := session_id, head_node_id := some node_id, updated_at := now }
    (row, { db with sessions := db.sessions ++ [row] })
  | some row =>
    let row' : SessionRow :=
      { row with head_node_id := some node_id, updated_at := now }
    (row', { db with
              sessions := db.sessions.map
                (fun r => if r.session_id == session_id then row' else r) })

/-- Source `get_session_head(session_id)`. -/
def get_session_head (db : MetaDB) (session_id : String) : Option String :=
  match getSessionRow db session_id with
  | some row => row.head_node_id
  | none => none

/-- Source `insert_artifact(...)`: try to insert; a primary-key `IntegrityError`
(the row exists) is resolved by returning the existing row unchanged. -/
def insert_artifact (db : MetaDB) (now : Nat)
    (artifact_id session_id kind format uri : String)
    (bytes_ rows cols : Nat) : ArtifactRow × MetaDB :=
  match getArtifact db artifact_id with
  | some existing => (existing, db)
  | none =>
    let row : ArtifactRow :=
      { artifact_id := artifact_id, kind := kind, format := format, uri := uri,
        bytes := bytes_, rows := rows, cols := cols, created_at := now,
        session_id := session_id }
    (row, { db with artifacts := db.artifacts ++ [row] })

/-- The `Node` row `insert_node` constructs when no row with the computed
hash exists: canonicalized parents and params are serialized back into the
stored JSON columns. -/
def freshNodeRow (now : Nat) (session_id op_type : String)
    (op_params : PyDict) (parent_node_ids : List String)
    (primary_artifact_id : Option String) : NodeRow :=
  { node_id := hash_node session_id (normalize_parents parent_node_ids)
      op_type (normalize_op_params op_params),
    op_type := op_type,
    op_params := jsonDict (normalize_op_params op_params),
    parent_node_ids := jsonStrList (normalize_parents parent_node_ids),
    primary_artifact_id := primary_artifact_id,
    created_at := now, session_id := session_id }

/-- Source `insert_node(...)`: canonicalize parents and params, hash, and insert;
a primary-key `IntegrityError` (the node exists) is resolved by returning
the existing row unchanged. -/
def insert_node (db : MetaDB) (now : Nat) (session_id op_type : String)
    (op_params : PyDict) (parent_node_ids : List String)
    (primary_artifact_id : Option String) : NodeRow × MetaDB :=
  match getNode db (hash_node session_id (normalize_parents parent_node_ids)
      op_type (normalize_op_params op_params)) with
  | some existing => (existing, db)
  | none =>
    (freshNodeRow now session_id op_type op_params parent_node_ids
       primary_artifact_id,
     { db with
        nodes := db.nodes ++
          [freshNodeRow now session_id op_type op_params parent_node_ids
             primary_artifact_id] })

/-- Source `get_node_by_artifact(artifact_id)` (meta.py): first node, in insertion
order, whose `primary_artifact_id` equals the given id.  Note: no session
filter and no ordering clause. -/
def get_node_by_artifact (db : MetaDB) (artifact_id : String) :
    Option NodeRow :=
  db.nodes.find? (fun n => n.primary_artifact_id == some artifact_id)

/-- Source `_infer_parent_node_id(session_id, seed_artifact_id)` (query_sql.py):
most recently created node of the session whose `primary_artifact_id`
equals the seed artifact id. -/
def infer_parent_node_id (db : MetaDB) (session_id seed_artifact_id : String) :
    Option String :=
  ((sortLe byCreatedDesc
      (db.nodes.filter
        (fun n => n.session_id == session_id &&
                  n.primary_artifact_id == some seed_artifact_id))).head?).map
    (fun n => n.node_id)

/-- Parent inference performed by `plot_from_artifact` (plot.py):
`parent = get_node_by_artifact(req.artifact_id)`, with no session scoping. -/
def plot_parent_node_id (db : MetaDB) (artifact_id : String) : Option String :=
  (get_node_by_artifact db artifact_id).map (fun n => n.node_id)

/-! ## api/history.py and api/checkout.py -/

/-- Result of the `/v1/history` handler: either HTTP 400 or the rows. -/
inductive HistoryResult where
  | badRequest : String → HistoryResult
  | ok : List NodeRow → HistoryResult
deriving DecidableEq, Repr

/-- Source `get_history(session_id, limit)` (history.py): reject out-of-range
limits with HTTP 400, otherwise delegate to `list_history`. -/
def get_history (db : MetaDB) (session_id : String) (limit : Int) :
    HistoryResult :=
  if limit ≤ 0 || limit > 500 then .badRequest "limit must be 1..500"
  else .ok (list_history db session_id limit.toNat)

/-- Result of the `/v1/checkout` handler: HTTP 404, or the updated head. -/
inductive CheckoutResult where
  | notFound : String → CheckoutResult
  | ok : Option String → CheckoutResult
deriving DecidableEq, Repr

/-- Source `checkout(req)` (checkout.py): validate the node exists (404 otherwise),
then move the session head.  Returns the response and the database after
the call. -/
def checkout (db : MetaDB) (now : Nat) (session_id node_id : String) :
    CheckoutResult × MetaDB :=
  match getNode db node_id with
  | none => (.notFound "node_id not found", db)
  | some _ =>
    (.ok (set_session_head db now session_id node_id).1.head_node_id,
     (set_session_head db now session_id node_id).2)

/-! ## artifacts.py: content-addressed store -/

/-- File contents as a byte list. -/
abbrev Bytes := List Nat

/-- A filesystem path, as its list of components (directories then name). -/
abbrev FsPath := List String

/-- The filesystem visible to the content store: bound paths with their
contents.  Paths are unique by construction of the operations below. -/
structure FileSys where
  files : List (FsPath × Bytes)
deriving DecidableEq, Repr

def fsGet (fs : FileSys) (p : FsPath) : Option Bytes :=
  (fs.files.find? (fun e => e.1 == p)).map (fun e => e.2)

/-- Source `path.unlink(missing_ok=True)`. -/
def fsRemove (fs : FileSys) (p : FsPath) : FileSys :=
  ⟨fs.files.filter (fun e => e.1 != p)⟩

/-- Bind `p` to `b`, replacing any previous binding. -/
def fsPut (fs : FileSys) (p : FsPath) (b : Bytes) : FileSys :=
  ⟨(p, b) :: (fsRemove fs p).files⟩

/-- Source `src.replace(dst)`: atomically move the file at `src` to `dst`. -/
def fsMove (fs : FileSys) (src dst : FsPath) (b : Bytes) : FileSys :=
  fsPut (fsRemove fs src) dst b

def hexByte (n : Nat) : String :=
  String.mk [hexDigitChar (n / 16 % 16), hexDigitChar (n % 16)]

/-- Model of `hashlib.sha256` over a file's bytes (`_hash_file`).  SHA-256
is external library code; the model is an injective deterministic digest,
matching the spec's assumed collision resistance. -/
def sha256HexOfBytes (b : Bytes) : String :=
  String.join (b.map hexByte)

/-- Python `digest[:2]` on our strings. -/
def strTake (s : String) (n : Nat) : String := String.mk (s.data.take n)

/-- Python `digest[2:4]` on our strings. -/
def strSlice (s : String) (i j : Nat) : String :=
  String.mk ((s.data.drop i).take (j - i))

/-- Source `_dst_for(digest, suffix)`: `root / digest[:2] / digest[2:4] /
f"{digest}.{suffix}"`. -/
def dst_for (root : FsPath) (digest suffix : String) : FsPath :=
  root ++ [strTake digest 2, strSlice digest 2 4, digest ++ "." ++ suffix]

/-- Outcome of a content-store ingest: the digest/destination pair returned,
and the filesystem afterwards.  `error` is the case where the temp file is
unreadable (`_hash_file` would raise). -/
inductive StoreResult where
  | error : StoreResult
  | ok : String → FsPath → FileSys → StoreResult
deriving DecidableEq, Repr

/-- Source `store_file(temp_path, ext)`: hash the temp file, compute the sharded
destination; if the destination exists, discard the temp file, otherwise
move the temp file into place.  Returns `(digest, dst)` either way. -/
def store_file (root : FsPath) (fs : FileSys) (temp_path : FsPath)
    (ext : String) : StoreResult :=
  match fsGet fs temp_path with
  | none => .error
  | some b =>
    let digest := sha256HexOfBytes b
    let dst := dst_for root digest ext
    if (fsGet fs dst).isSome then
      .ok digest dst (fsRemove fs temp_path)
    else
      .ok digest dst (fsMove fs temp_path dst b)

/-- Source `store_parquet(temp_parquet)`: same body as `store_file` with suffix
`"parquet"`. -/
def store_parquet (root : FsPath) (fs : FileSys) (temp_parquet : FsPath) :
    StoreResult :=
  store_file root fs temp_parquet "parquet"

/-! ## api/artifacts.py: path containment and artifact serving -/

/-- A `pathlib.Path`: whether it is absolute, and its components. -/
structure PyPath where
  absolute : Bool
  parts : List String
deriving DecidableEq, Repr

/-- Parse a POSIX path string into a `PyPath` (components split on `/`,
empty components collapsed, as `pathlib` does). -/
def splitSlashAux : List Char → List Char → List String
  | [], acc => if acc.isEmpty then [] else [String.mk acc.reverse]
  | c :: cs, acc =>
    if c = '/' then
      if acc.isEmpty then splitSlashAux cs []
      else String.mk acc.reverse :: splitSlashAux cs []
    else splitSlashAux cs (c :: acc)

def pathOfString (s : String) : PyPath :=
  { absolute := match s.data with
      | [] => false
      | c :: _ => c = '/'
    parts := splitSlashAux s.data [] }

/-- Normalization performed by `Path.resolve()` on the components of an
absolute path: `.` is dropped and `..` removes the previous component
(at the root, `..` stays at the root).  Symlinks are not modelled. -/
def normalizeParts : List String → List String → List String
  | stack, [] => stack.reverse
  | stack, c :: cs =>
    if c = "." then normalizeParts stack cs
    else if c = ".." then normalizeParts stack.tail cs
    else normalizeParts (c :: stack) cs

/-- Source `Path.resolve()`: make the path absolute against the working directory
`cwd` (itself absolute and normalized) and normalize it. -/
def resolvePath (cwd : List String) (p : PyPath) : List String :=
  normalizeParts [] (if p.absolute then p.parts else cwd ++ p.parts)

/-- Predicate: `root_parts` is an ancestor-or-self of `p_parts`
(`path.relative_to(root)` succeeds exactly then). -/
def leadsUnder : List String → List String → Bool
  | [], _ => true
  | _ :: _, [] => false
  | a :: as, b :: bs => a == b && leadsUnder as bs

/-- Source `_safe_under(root, path)`: `path.resolve().relative_to(root.resolve())`
succeeds. -/
def safe_under (cwd : List String) (root p : PyPath) : Bool :=
  leadsUnder (resolvePath cwd root) (resolvePath cwd p)

/-- Outcome of `GET /v1/artifacts/{artifact_id}`. -/
inductive FetchResult where
  | notFound : String → FetchResult
  | forbidden : FetchResult
  | served : PyPath → FetchResult
deriving DecidableEq, Repr

/-- Source `fetch_artifact(artifact_id)` (api/artifacts.py): look the artifact up,
refuse with 403 unless its stored location resolves under the artifacts
root, 404 if the file is missing on disk, otherwise serve the file.
`fileExists` models `Path.exists()`. -/
def fetch_artifact (db : MetaDB) (cwd : List String) (artifactsDir : PyPath)
    (fileExists : PyPath → Bool) (artifact_id : String) : FetchResult :=
  match getArtifact db artifact_id with
  | none => .notFound "artifact not found"
  | some art =>
    let p := pathOfString art.uri
    if !(safe_under cwd artifactsDir p) then .forbidden
    else if !(fileExists p) then .notFound "file missing on disk"
    else .served p

/-! ## Canonicalization lemmas -/

theorem mem_normalize_parents {x : String} {l : List String} :
    x ∈ normalize_parents l ↔ x ∈ l ∧ x ≠ "" := by
  unfold normalize_parents sortStrings
  rw [mem_sortLe, List.mem_dedup, List.mem_filter, bne_iff_ne]

theorem nodup_normalize_parents (l : List String) :
    (normalize_parents l).Nodup :=
  nodup_sortLe (List.nodup_dedup _)

theorem sorted_normalize_parents (l : List String) :
    (normalize_parents l).Pairwise (fun x y => strLe x y = true) :=
  sortStrings_sorted _

/-- Lemma: `_normalize_parents` depends only on the set of supplied parent ids. -/
theorem normalize_parents_eq_of_same_mem {l₁ l₂ : List String}
    (h : ∀ a, a ∈ l₁ ↔ a ∈ l₂) :
    normalize_parents l₁ = normalize_parents l₂ := by
  unfold normalize_parents
  apply sortStrings_eq_of_same_mem (List.nodup_dedup _) (List.nodup_dedup _)
  intro a
  rw [List.mem_dedup, List.mem_dedup, List.mem_filter, List.mem_filter, h a]

theorem normalize_parents_idem (l : List String) :
    normalize_parents (normalize_parents l) = normalize_parents l := by
  have h₁ : (normalize_parents l).filter (fun p => p != "") = normalize_parents l :=
    List.filter_eq_self.mpr
      (fun a ha => bne_iff_ne.mpr (mem_normalize_parents.mp ha).2)
  have h₂ : (normalize_parents l).dedup = normalize_parents l :=
    (nodup_normalize_parents l).dedup
  show sortStrings (((normalize_parents l).filter (fun p => p != "")).dedup) =
    normalize_parents l
  rw [h₁, h₂]
  exact sortLe_eq_of_pairwise (sorted_normalize_parents l)

theorem lookup_eq_none_iff_keys {d : PyDict} {k : String} :
    d.lookup k = none ↔ k ∉ d.map Prod.fst := by
  induction d with
  | nil => simp [List.lookup]
  | cons e es ih =>
    by_cases h : k = e.1
    · simp [List.lookup, h]
    · have hb : (k == e.1) = false := beq_eq_false_iff_ne.mpr h
      simp [List.lookup, hb, ih, h]

/-- Lemma: `json.dumps(d, sort_keys=True)` depends only on the key→value mapping
of the dict, not on its insertion order. -/
theorem jsonDict_eq_of_lookup_eq {d₁ d₂ : PyDict}
    (h : ∀ k, d₁.lookup k = d₂.lookup k) : jsonDict d₁ = jsonDict d₂ := by
  have hkeys : ∀ k, k ∈ (d₁.map Prod.fst).dedup ↔ k ∈ (d₂.map Prod.fst).dedup := by
    intro k
    rw [List.mem_dedup, List.mem_dedup]
    constructor
    · intro hk
      by_contra hk2
      have := lookup_eq_none_iff_keys.mpr hk2
      rw [← h k] at this
      exact (lookup_eq_none_iff_keys.mp this) hk
    · intro hk
      by_contra hk2
      have := lookup_eq_none_iff_keys.mpr hk2
      rw [h k] at this
      exact (lookup_eq_none_iff_keys.mp this) hk
  have hsort : sortStrings (d₁.map Prod.fst).dedup = sortStrings (d₂.map Prod.fst).dedup :=
    sortStrings_eq_of_same_mem (List.nodup_dedup _) (List.nodup_dedup _) hkeys
  have hfun : (fun k => jsonStr k ++ ":" ++ jsonOptVal (d₁.lookup k)) =
      (fun k => jsonStr k ++ ":" ++ jsonOptVal (d₂.lookup k)) :=
    funext (fun k => by rw [h k])
  unfold jsonDict
  rw [hsort, hfun]

/-- Lemma: `_hash_node` depends only on the logical tuple: the session, the set of
parent ids, the op type, and the key→value mapping of the params. -/
theorem hash_node_eq_of_equiv {sid t : String} {p₁ p₂ : List String}
    {d₁ d₂ : PyDict}
    (hp : ∀ a, a ∈ p₁ ↔ a ∈ p₂) (hd : ∀ k, d₁.lookup k = d₂.lookup k) :
    hash_node sid p₁ t d₁ = hash_node sid p₂ t d₂ := by
  unfold hash_node hashPayload sha256Model normalize_op_params
  rw [normalize_parents_eq_of_same_mem hp, jsonDict_eq_of_lookup_eq hd]

theorem find?_append_left_none {α : Type} {p : α → Bool} {l₁ : List α}
    (l₂ : List α) (h : l₁.find? p = none) :
    (l₁ ++ l₂).find? p = l₂.find? p := by
  rw [List.find?_append, h, Option.none_or]

/-! ## insert_node / insert_artifact equations -/

theorem hash_node_norm (sid t : String) (p : List String) (d : PyDict) :
    hash_node sid (normalize_parents p) t d =
      sha256Model (hashPayload sid (normalize_parents p) t d) := by
  unfold hash_node normalize_op_params
  rw [normalize_parents_idem]

theorem insert_node_existing (db : MetaDB) (now : Nat) (sid t : String)
    (d : PyDict) (p : List String) (aid : Option String) (e : NodeRow)
    (h : getNode db (hash_node sid (normalize_parents p) t d) = some e) :
    insert_node db now sid t d p aid = (e, db) := by
  unfold insert_node normalize_op_params
  rw [h]

theorem insert_node_fresh (db : MetaDB) (now : Nat) (sid t : String)
    (d : PyDict) (p : List String) (aid : Option String)
    (h : getNode db (hash_node sid (normalize_parents p) t d) = none) :
    insert_node db now sid t d p aid =
      (freshNodeRow now sid t d p aid,
       { db with nodes := db.nodes ++ [freshNodeRow now sid t d p aid] }) := by
  unfold insert_node normalize_op_params
  rw [h]

theorem getNode_append_self (db : MetaDB) (row : NodeRow)
    (h : getNode db row.node_id = none) :
    getNode { db with nodes := db.nodes ++ [row] } row.node_id = some row := by
  unfold getNode at h ⊢
  rw [find?_append_left_none _ h]
  simp [List.find?]

theorem getNode_some_node_id {db : MetaDB} {nid : String} {e : NodeRow}
    (h : getNode db nid = some e) : e.node_id = nid := by
  unfold getNode at h
  simpa using List.find?_some h

/-! ## Claim C1 -/

/-- C1: for every session_id, op_type, op_params dict and parent list,
calling `insert_node` twice with the same logical tuple (regardless of key
ordering inside `op_params` or ordering/duplication inside
`parent_node_ids`) returns a Node with the same `node_id` both times and
persists only one row; `node_id` is a deterministic hash of (session_id,
deduplicated-and-sorted parents, op_type, canonically serialized params). -/
theorem claim_C1_node_hash_deterministic
    (db : MetaDB) (now₁ now₂ : Nat) (sid t : String)
    (d₁ d₂ : PyDict) (p₁ p₂ : List String) (aid₁ aid₂ : Option String)
    (hd : ∀ k, d₁.lookup k = d₂.lookup k)
    (hp : ∀ a, a ∈ p₁ ↔ a ∈ p₂) :
    (insert_node (insert_node db now₁ sid t d₁ p₁ aid₁).2 now₂ sid t d₂ p₂ aid₂).1.node_id
        = (insert_node db now₁ sid t d₁ p₁ aid₁).1.node_id
    ∧ (insert_node (insert_node db now₁ sid t d₁ p₁ aid₁).2 now₂ sid t d₂ p₂ aid₂).2
        = (insert_node db now₁ sid t d₁ p₁ aid₁).2
    ∧ (insert_node db now₁ sid t d₁ p₁ aid₁).1.node_id
        = sha256Model (hashPayload sid (normalize_parents p₁) t d₁)
    ∧ ((insert_node db now₁ sid t d₁ p₁ aid₁).2.nodes = db.nodes
       ∨ (insert_node db now₁ sid t d₁ p₁ aid₁).2.nodes
         = db.nodes ++ [(insert_node db now₁ sid t d₁ p₁ aid₁).1]) := by
  have hmemnorm : ∀ a, a ∈ normalize_parents p₂ ↔ a ∈ normalize_parents p₁ := by
    intro a
    rw [mem_normalize_parents, mem_normalize_parents, hp a]
  have hnid : hash_node sid (normalize_parents p₂) t d₂
      = hash_node sid (normalize_parents p₁) t d₁ :=
    hash_node_eq_of_equiv hmemnorm (fun k => (hd k).symm)
  cases hfind : getNode db (hash_node sid (normalize_parents p₁) t d₁) with
  | some e =>
    have h₁ := insert_node_existing db now₁ sid t d₁ p₁ aid₁ e hfind
    have h₁2 : (insert_node db now₁ sid t d₁ p₁ aid₁).2 = db := by rw [h₁]
    have hfind₂ : getNode db (hash_node sid (normalize_parents p₂) t d₂) = some e := by
      rw [hnid]; exact hfind
    have h₂ := insert_node_existing db now₂ sid t d₂ p₂ aid₂ e hfind₂
    rw [h₁2, h₂, h₁]
    refine ⟨rfl, rfl, ?_, Or.inl rfl⟩
    rw [show e.node_id = hash_node sid (normalize_parents p₁) t d₁ from
      getNode_some_node_id hfind]
    exact hash_node_norm sid t p₁ d₁
  | none =>
    have h₁ := insert_node_fresh db now₁ sid t d₁ p₁ aid₁ hfind
    have h₁2 : (insert_node db now₁ sid t d₁ p₁ aid₁).2
        = { db with nodes := db.nodes ++ [freshNodeRow now₁ sid t d₁ p₁ aid₁] } := by
      rw [h₁]
    have happ : getNode { db with nodes := db.nodes ++ [freshNodeRow now₁ sid t d₁ p₁ aid₁] }
        (hash_node sid (normalize_parents p₁) t d₁)
        = some (freshNodeRow now₁ sid t d₁ p₁ aid₁) :=
      getNode_append_self db (freshNodeRow now₁ sid t d₁ p₁ aid₁) hfind
    have hfind₂ : getNode { db with nodes := db.nodes ++ [freshNodeRow now₁ sid t d₁ p₁ aid₁] }
        (hash_node sid (normalize_parents p₂) t d₂)
        = some (freshNodeRow now₁ sid t d₁ p₁ aid₁) := by
      rw [hnid]; exact happ
    have h₂ := insert_node_existing _ now₂ sid t d₂ p₂ aid₂ _ hfind₂
    rw [h₁2, h₂, h₁]
    exact ⟨rfl, rfl, hash_node_norm sid t p₁ d₁, Or.inr rfl⟩

def exDB0 : MetaDB := { sessions := [], artifacts := [], nodes := [] }

def exD1 : PyDict := [("b", "1"), ("a", "2")]

def exD2 : PyDict := [("a", "2"), ("b", "1")]

theorem exD_lookup_eq : ∀ k, exD1.lookup k = exD2.lookup k := by
  intro k
  by_cases ha : k = "a"
  · subst ha; rfl
  by_cases hb : k = "b"
  · subst hb; rfl
  have ha' : (k == "a") = false := beq_eq_false_iff_ne.mpr ha
  have hb' : (k == "b") = false := beq_eq_false_iff_ne.mpr hb
  simp [exD1, exD2, List.lookup, ha', hb']

theorem exP_mem_iff : ∀ a, a ∈ (["y", "x", "x"] : List String) ↔ a ∈ (["x", "y"] : List String) := by
  intro a
  simp only [List.mem_cons, List.not_mem_nil, or_false]
  tauto

/-- Witness for C1: two logically identical inserts (params in different
key order, parents reordered and duplicated) at a concrete database. -/
theorem claim_C1_witness :
    (insert_node (insert_node exDB0 1 "s" "sql" exD1 ["y", "x", "x"] (some "A")).2 2 "s" "sql" exD2 ["x", "y"] (some "B")).1.node_id
        = (insert_node exDB0 1 "s" "sql" exD1 ["y", "x", "x"] (some "A")).1.node_id
    ∧ (insert_node (insert_node exDB0 1 "s" "sql" exD1 ["y", "x", "x"] (some "A")).2 2 "s" "sql" exD2 ["x", "y"] (some "B")).2
        = (insert_node exDB0 1 "s" "sql" exD1 ["y", "x", "x"] (some "A")).2
    ∧ (insert_node exDB0 1 "s" "sql" exD1 ["y", "x", "x"] (some "A")).1.node_id
        = sha256Model (hashPayload "s" (normalize_parents ["y", "x", "x"]) "sql" exD1)
    ∧ ((insert_node exDB0 1 "s" "sql" exD1 ["y", "x", "x"] (some "A")).2.nodes = exDB0.nodes
       ∨ (insert_node exDB0 1 "s" "sql" exD1 ["y", "x", "x"] (some "A")).2.nodes
         = exDB0.nodes ++ [(insert_node exDB0 1 "s" "sql" exD1 ["y", "x", "x"] (some "A")).1]) :=
  claim_C1_node_hash_deterministic exDB0 1 2 "s" "sql" exD1 exD2
    ["y", "x", "x"] ["x", "y"] (some "A") (some "B") exD_lookup_eq exP_mem_iff

/-! ## Claim C9 -/

/-- C9: `primary_artifact_id` is not part of the node hash, so re-calling
`insert_node` with an existing node's logical tuple but a different
`primary_artifact_id` returns the stored node with its original
`primary_artifact_id` unchanged: the newly supplied artifact id is ignored
and no field of the stored node is modified. -/
theorem claim_C9_primary_artifact_id_ignored_on_replay
    (db : MetaDB) (now₁ now₂ : Nat) (sid t : String) (d : PyDict)
    (p : List String) (aid₁ aid₂ : Option String)
    (h : getNode db (hash_node sid (normalize_parents p) t d) = none) :
    (insert_node (insert_node db now₁ sid t d p aid₁).2 now₂ sid t d p aid₂).1
        = (insert_node db now₁ sid t d p aid₁).1
    ∧ (insert_node (insert_node db now₁ sid t d p aid₁).2 now₂ sid t d p aid₂).2
        = (insert_node db now₁ sid t d p aid₁).2
    ∧ (insert_node (insert_node db now₁ sid t d p aid₁).2 now₂ sid t d p aid₂).1.primary_artifact_id
        = aid₁ := by
  have h₁ := insert_node_fresh db now₁ sid t d p aid₁ h
  have h₁2 : (insert_node db now₁ sid t d p aid₁).2
      = { db with nodes := db.nodes ++ [freshNodeRow now₁ sid t d p aid₁] } := by
    rw [h₁]
  have happ : getNode { db with nodes := db.nodes ++ [freshNodeRow now₁ sid t d p aid₁] }
      (hash_node sid (normalize_parents p) t d)
      = some (freshNodeRow now₁ sid t d p aid₁) :=
    getNode_append_self db (freshNodeRow now₁ sid t d p aid₁) h
  have h₂ := insert_node_existing _ now₂ sid t d p aid₂ _ happ
  rw [h₁2, h₂, h₁]
  exact ⟨rfl, rfl, rfl⟩

/-- Witness for C9: a node inserted with artifact id `"A"` is returned
unchanged by a replay that supplies artifact id `"B"`. -/
theorem claim_C9_witness :
    (insert_node (insert_node exDB0 1 "s" "sql" exD1 ["x"] (some "A")).2 2 "s" "sql" exD1 ["x"] (some "B")).1
        = (insert_node exDB0 1 "s" "sql" exD1 ["x"] (some "A")).1
    ∧ (insert_node (insert_node exDB0 1 "s" "sql" exD1 ["x"] (some "A")).2 2 "s" "sql" exD1 ["x"] (some "B")).2
        = (insert_node exDB0 1 "s" "sql" exD1 ["x"] (some "A")).2
    ∧ (insert_node (insert_node exDB0 1 "s" "sql" exD1 ["x"] (some "A")).2 2 "s" "sql" exD1 ["x"] (some "B")).1.primary_artifact_id
        = some "A" :=
  claim_C9_primary_artifact_id_ignored_on_replay exDB0 1 2 "s" "sql" exD1
    ["x"] (some "A") (some "B") (by rfl)

/-! ## Claim C10 -/

/-- C10: parent normalization drops empty (falsy) parent ids before hashing
and storage: `insert_node` with parent list `[""]` behaves identically to
the empty parent list, and a freshly stored node's `parent_node_ids` column
is the serialization of a sorted, duplicate-free list of non-empty ids. -/
theorem claim_C10_empty_parents_dropped
    (db : MetaDB) (now : Nat) (sid t : String) (d : PyDict)
    (aid : Option String) (p : List String)
    (h : getNode db (hash_node sid (normalize_parents p) t d) = none) :
    insert_node db now sid t d [""] aid = insert_node db now sid t d [] aid
    ∧ (insert_node db now sid t d p aid).1.parent_node_ids
        = jsonStrList (normalize_parents p)
    ∧ (normalize_parents p).Pairwise (fun x y => strLe x y = true)
    ∧ (normalize_parents p).Nodup
    ∧ ∀ q ∈ normalize_parents p, q ≠ "" := by
  refine ⟨rfl, ?_, sorted_normalize_parents p, nodup_normalize_parents p,
    fun q hq => (mem_normalize_parents.mp hq).2⟩
  rw [insert_node_fresh db now sid t d p aid h]
  rfl

/-- Witness for C10: inserting with parents `["", "y", "x", "x"]` stores the
sorted deduplicated non-empty list `["x", "y"]`. -/
theorem claim_C10_witness :
    insert_node exDB0 1 "s" "sql" exD1 [""] (some "A")
        = insert_node exDB0 1 "s" "sql" exD1 [] (some "A")
    ∧ (insert_node exDB0 1 "s" "sql" exD1 ["", "y", "x", "x"] (some "A")).1.parent_node_ids
        = jsonStrList (normalize_parents ["", "y", "x", "x"])
    ∧ (normalize_parents ["", "y", "x", "x"]).Pairwise (fun x y => strLe x y = true)
    ∧ (normalize_parents ["", "y", "x", "x"]).Nodup
    ∧ ∀ q ∈ normalize_parents ["", "y", "x", "x"], q ≠ "" :=
  claim_C10_empty_parents_dropped exDB0 1 "s" "sql" exD1 (some "A")
    ["", "y", "x", "x"] (by rfl)

/-! ## Claim C5 -/

theorem getArtifact_append_self (db : MetaDB) (row : ArtifactRow)
    (h : getArtifact db row.artifact_id = none) :
    getArtifact { db with artifacts := db.artifacts ++ [row] } row.artifact_id
      = some row := by
  unfold getArtifact at h ⊢
  rw [find?_append_left_none _ h]
  simp [List.find?]

/-- C5: inserting an artifact whose `artifact_id` already exists returns
the existing row unchanged — the newly supplied descriptive fields are
ignored and `created_at` keeps its first-insertion value — never creates a
second row and never errors; the two calls here model both a retry and the
sequentialised race (the loser observes and returns the winner's row). -/
theorem claim_C5_insert_artifact_idempotent
    (db : MetaDB) (now now' : Nat) (aid : String)
    (sid kind format uri : String) (b r c : Nat)
    (sid' kind' format' uri' : String) (b' r' c' : Nat)
    (h : getArtifact db aid = none) :
    (insert_artifact (insert_artifact db now aid sid kind format uri b r c).2
        now' aid sid' kind' format' uri' b' r' c').1
      = (insert_artifact db now aid sid kind format uri b r c).1
    ∧ (insert_artifact (insert_artifact db now aid sid kind format uri b r c).2
        now' aid sid' kind' format' uri' b' r' c').2
      = (insert_artifact db now aid sid kind format uri b r c).2
    ∧ (insert_artifact (insert_artifact db now aid sid kind format uri b r c).2
        now' aid sid' kind' format' uri' b' r' c').1.created_at = now
    ∧ (insert_artifact db now aid sid kind format uri b r c).2.artifacts
      = db.artifacts ++ [(insert_artifact db now aid sid kind format uri b r c).1] := by
  have h₁ : insert_artifact db now aid sid kind format uri b r c
      = ({ artifact_id := aid, kind := kind, format := format, uri := uri,
           bytes := b, rows := r, cols := c, created_at := now,
           session_id := sid },
         { db with artifacts := db.artifacts ++
             [{ artifact_id := aid, kind := kind, format := format, uri := uri,
                bytes := b, rows := r, cols := c, created_at := now,
                session_id := sid }] }) := by
    unfold insert_artifact
    rw [h]
  have h₁2 := congrArg Prod.snd h₁
  have happ := getArtifact_append_self db
    { artifact_id := aid, kind := kind, format := format, uri := uri,
      bytes := b, rows := r, cols := c, created_at := now, session_id := sid } h
  have h₂ : insert_artifact
        { db with artifacts := db.artifacts ++
            [{ artifact_id := aid, kind := kind, format := format, uri := uri,
               bytes := b, rows := r, cols := c, created_at := now,
               session_id := sid }] }
        now' aid sid' kind' format' uri' b' r' c'
      = ({ artifact_id := aid, kind := kind, format := format, uri := uri,
           bytes := b, rows := r, cols := c, created_at := now,
           session_id := sid },
         { db with artifacts := db.artifacts ++
             [{ artifact_id := aid, kind := kind, format := format, uri := uri,
                bytes := b, rows := r, cols := c, created_at := now,
                session_id := sid }] }) := by
    unfold insert_artifact
    rw [happ]
  rw [h₁2, h₂, h₁]
  exact ⟨rfl, rfl, rfl, rfl⟩

/-- Witness for C5: re-inserting artifact `"A"` with different descriptive
fields returns the original row with its first-insertion `created_at`. -/
theorem claim_C5_witness :
    (insert_artifact (insert_artifact exDB0 7 "A" "s1" "table" "parquet" "/p1" 3 2 1).2
        9 "A" "s2" "plot" "png" "/p2" 8 0 0).1
      = (insert_artifact exDB0 7 "A" "s1" "table" "parquet" "/p1" 3 2 1).1
    ∧ (insert_artifact (insert_artifact exDB0 7 "A" "s1" "table" "parquet" "/p1" 3 2 1).2
        9 "A" "s2" "plot" "png" "/p2" 8 0 0).2
      = (insert_artifact exDB0 7 "A" "s1" "table" "parquet" "/p1" 3 2 1).2
    ∧ (insert_artifact (insert_artifact exDB0 7 "A" "s1" "table" "parquet" "/p1" 3 2 1).2
        9 "A" "s2" "plot" "png" "/p2" 8 0 0).1.created_at = 7
    ∧ (insert_artifact exDB0 7 "A" "s1" "table" "parquet" "/p1" 3 2 1).2.artifacts
      = exDB0.artifacts ++ [(insert_artifact exDB0 7 "A" "s1" "table" "parquet" "/p1" 3 2 1).1] :=
  claim_C5_insert_artifact_idempotent exDB0 7 9 "A" "s1" "table" "parquet" "/p1" 3 2 1
    "s2" "plot" "png" "/p2" 8 0 0 (by rfl)

/-! ## Claim C7 -/

theorem byCreatedDesc_trans (a b c : NodeRow) (h₁ : byCreatedDesc a b = true)
    (h₂ : byCreatedDesc b c = true) : byCreatedDesc a c = true := by
  unfold byCreatedDesc at *
  simp only [decide_eq_true_eq] at *
  omega

theorem byCreatedDesc_total (a b : NodeRow) :
    byCreatedDesc a b = true ∨ byCreatedDesc b a = true := by
  unfold byCreatedDesc
  simp only [decide_eq_true_eq]
  omega

/-- C7: for every session and limit, `list_history` returns at most `limit`
nodes, all belonging to the session, ordered most recently created first
(non-increasing `created_at`). -/
theorem claim_C7_list_history_ordered_bounded
    (db : MetaDB) (sid : String) (limit : Nat) :
    (list_history db sid limit).length ≤ limit
    ∧ (∀ n ∈ list_history db sid limit, n.session_id = sid)
    ∧ (list_history db sid limit).Pairwise
        (fun a b => b.created_at ≤ a.created_at) := by
  refine ⟨?_, ?_, ?_⟩
  · unfold list_history
    rw [List.length_take]
    exact min_le_left _ _
  · intro n hn
    unfold list_history at hn
    have hn₂ := mem_sortLe.mp (List.mem_of_mem_take hn)
    exact beq_iff_eq.mp (List.mem_filter.mp hn₂).2
  · have hs := pairwise_sortLe byCreatedDesc_trans byCreatedDesc_total
      (db.nodes.filter (fun n => n.session_id == sid))
    have ht : (list_history db sid limit).Pairwise
        (fun a b => byCreatedDesc a b = true) :=
      hs.sublist (List.take_sublist limit _)
    exact ht.imp (fun h => by
      unfold byCreatedDesc at h
      exact decide_eq_true_eq.mp h)

/-! ## Claim C4 -/

/-- C4: a history request with `limit` outside 1..500 (in particular 0 and
10000) fails with a validation error rather than being silently clamped; a
request with `limit` inside the bounds does not fail validation. -/
theorem claim_C4_history_limit_validation
    (db : MetaDB) (sid : String) (limit : Int) :
    ((limit < 1 ∨ 500 < limit) →
      get_history db sid limit = .badRequest "limit must be 1..500")
    ∧ (1 ≤ limit → limit ≤ 500 →
      get_history db sid limit = .ok (list_history db sid limit.toNat)) := by
  constructor
  · intro h
    unfold get_history
    split
    · rfl
    · next hcond =>
      exfalso
      simp only [Bool.or_eq_true, decide_eq_true_eq, not_or] at hcond
      omega
  · intro h1 h2
    unfold get_history
    split
    · next hcond =>
      exfalso
      simp only [Bool.or_eq_true, decide_eq_true_eq] at hcond
      omega
    · rfl

/-- Witness for C4: limits 0 and 10000 are rejected with HTTP 400, limit 3
passes validation. -/
theorem claim_C4_witness :
    get_history exDB0 "s" 0 = .badRequest "limit must be 1..500"
    ∧ get_history exDB0 "s" 10000 = .badRequest "limit must be 1..500"
    ∧ get_history exDB0 "s" 3 = .ok (list_history exDB0 "s" (3 : Int).toNat) :=
  ⟨(claim_C4_history_limit_validation exDB0 "s" 0).1 (Or.inl (by decide)),
   (claim_C4_history_limit_validation exDB0 "s" 10000).1 (Or.inr (by decide)),
   (claim_C4_history_limit_validation exDB0 "s" 3).2 (by decide) (by decide)⟩

/-! ## Claim C6 -/

theorem find?_replace_some (sid : String) (row' : SessionRow)
    (hrow' : (row'.session_id == sid) = true) :
    ∀ (l : List SessionRow) (r : SessionRow),
      l.find? (fun s => s.session_id == sid) = some r →
      (l.map (fun s => if s.session_id == sid then row' else s)).find?
        (fun s => s.session_id == sid) = some row' := by
  intro l
  induction l with
  | nil => intro r h; simp [List.find?] at h
  | cons x xs ih =>
    intro r h
    by_cases hx : x.session_id = sid
    · have hx' : (x.session_id == sid) = true := beq_iff_eq.mpr hx
      simp [List.find?, hx', hrow']
    · have hx' : (x.session_id == sid) = false := beq_eq_false_iff_ne.mpr hx
      simp only [List.find?, hx'] at h
      simp only [List.map, hx', Bool.false_eq_true, if_false, List.find?]
      exact ih r h

theorem set_session_head_spec (db : MetaDB) (now : Nat) (sid nid : String) :
    (set_session_head db now sid nid).1.head_node_id = some nid
    ∧ getSessionRow (set_session_head db now sid nid).2 sid
        = some (set_session_head db now sid nid).1 := by
  cases hrow : getSessionRow db sid with
  | none =>
    unfold set_session_head
    rw [hrow]
    refine ⟨rfl, ?_⟩
    unfold getSessionRow at hrow ⊢
    rw [find?_append_left_none _ hrow]
    simp [List.find?]
  | some row =>
    have hmatch : (row.session_id == sid) = true := by
      unfold getSessionRow at hrow
      simpa using List.find?_some hrow
    unfold set_session_head
    rw [hrow]
    dsimp only
    refine ⟨rfl, ?_⟩
    unfold getSessionRow at hrow ⊢
    exact find?_replace_some sid
      { row with head_node_id := some nid, updated_at := now }
      hmatch db.sessions row hrow

/-- C6: `checkout` with a nonexistent `node_id` fails with NotFound and
leaves the database (in particular the session's prior head) unchanged;
checkout succeeds only for an existing node, in which case it sets the
session's head to that `node_id`, creating the session row if absent. -/
theorem claim_C6_checkout_validation
    (db : MetaDB) (now : Nat) (sid nid : String) :
    (getNode db nid = none →
      checkout db now sid nid = (.notFound "node_id not found", db))
    ∧ (∀ n, getNode db nid = some n →
        (checkout db now sid nid).1 = .ok (some nid)
        ∧ get_session_head (checkout db now sid nid).2 sid = some nid) := by
  constructor
  · intro h
    unfold checkout
    rw [h]
  · intro n h
    unfold checkout
    rw [h]
    rcases set_session_head_spec db now sid nid with ⟨hhead, hrow⟩
    constructor
    · dsimp only
      rw [hhead]
    · dsimp only
      unfold get_session_head
      rw [hrow]
      exact hhead

def exNode1 : NodeRow :=
  { node_id := "n1", op_type := "upload", op_params := "\x7b\x7d",
    parent_node_ids := "[]", primary_artifact_id := some "a1",
    created_at := 100, session_id := "s1" }

def exDB1 : MetaDB :=
  { sessions := [{ session_id := "s1", head_node_id := some "n0", updated_at := 5 }],
    artifacts := [], nodes := [exNode1] }

/-- Witness for C6: checking out a nonexistent node fails and leaves the
database unchanged; checking out the existing node `"n1"` moves the head. -/
theorem claim_C6_witness :
    checkout exDB1 6 "s1" "missing" = (.notFound "node_id not found", exDB1)
    ∧ ((checkout exDB1 6 "s1" "n1").1 = .ok (some "n1")
       ∧ get_session_head (checkout exDB1 6 "s1" "n1").2 "s1" = some "n1") :=
  ⟨(claim_C6_checkout_validation exDB1 6 "s1" "missing").1 (by rfl),
   (claim_C6_checkout_validation exDB1 6 "s1" "n1").2 exNode1 (by rfl)⟩

/-! ## Claim C3 -/

def exDBCross : MetaDB := { sessions := [], artifacts := [], nodes := [exNode1] }

/-- Counterexample to C3 as stated: artifact `"a1"` is produced by node
`"n1"` of session `"s1"` only, yet the producing-node lookup used for
parent inference by the plot path (`get_node_by_artifact`, which takes no
session argument at all) returns node `"n1"` — a node of session `"s1"` —
when serving a request for any other session (e.g. `"s2"`), instead of
`None`. -/
theorem claim_C3_counterexample :
    plot_parent_node_id exDBCross "a1" = some "n1"
    ∧ (get_node_by_artifact exDBCross "a1").map (fun n => n.session_id)
        = some "s1"
    ∧ "s1" ≠ "s2" := by
  refine ⟨rfl, rfl, ?_⟩
  decide

/-- C3 (amended): the SQL-path producing-node lookup
`_infer_parent_node_id` is session-scoped: queried for an artifact in a
session none of whose nodes produced it, it returns `None`, and any node id
it returns belongs to a node of the queried session whose
`primary_artifact_id` equals the artifact and whose `created_at` is maximal
among such nodes.  The plot path's lookup `get_node_by_artifact` takes no
session argument and can return a node of a different session. -/
theorem claim_C3_amended_session_scoped_inference
    (db : MetaDB) (sid aid : String) :
    ((∀ n ∈ db.nodes, n.primary_artifact_id = some aid → n.session_id ≠ sid) →
      infer_parent_node_id db sid aid = none)
    ∧ (∀ nid, infer_parent_node_id db sid aid = some nid →
        ∃ n ∈ db.nodes, n.node_id = nid ∧ n.session_id = sid
          ∧ n.primary_artifact_id = some aid
          ∧ ∀ m ∈ db.nodes, m.session_id = sid →
              m.primary_artifact_id = some aid → m.created_at ≤ n.created_at) := by
  constructor
  · intro h
    unfold infer_parent_node_id
    have hfil : db.nodes.filter
        (fun n => n.session_id == sid && n.primary_artifact_id == some aid) = [] := by
      rw [List.filter_eq_nil_iff]
      intro n hn
      intro hcontra
      have h12 : n.session_id = sid ∧ n.primary_artifact_id = some aid := by
        simpa using hcontra
      exact h n hn h12.2 h12.1
    rw [hfil]
    rfl
  · intro nid hnid
    unfold infer_parent_node_id at hnid
    cases hsort : sortLe byCreatedDesc
        (db.nodes.filter
          (fun n => n.session_id == sid && n.primary_artifact_id == some aid)) with
    | nil => rw [hsort] at hnid; simp at hnid
    | cons n₀ rest =>
      rw [hsort] at hnid
      simp only [List.head?, Option.map_some] at hnid
      have hn₀sort : n₀ ∈ sortLe byCreatedDesc
          (db.nodes.filter
            (fun n => n.session_id == sid && n.primary_artifact_id == some aid)) := by
        rw [hsort]
        simp
      have hn₀mem : n₀ ∈ db.nodes.filter
          (fun n => n.session_id == sid && n.primary_artifact_id == some aid) :=
        mem_sortLe.mp hn₀sort
      rcases List.mem_filter.mp hn₀mem with ⟨hmem, hpred⟩
      have h12 : n₀.session_id = sid ∧ n₀.primary_artifact_id = some aid := by
        simpa using hpred
      refine ⟨n₀, hmem, Option.some_injective _ hnid.symm ▸ rfl, h12.1, h12.2, ?_⟩
      intro m hm hmsid hmaid
      have hmfil : m ∈ db.nodes.filter
          (fun n => n.session_id == sid && n.primary_artifact_id == some aid) := by
        rw [List.mem_filter]
        exact ⟨hm, by simp [hmsid, hmaid]⟩
      have hmsort : m ∈ sortLe byCreatedDesc
          (db.nodes.filter
            (fun n => n.session_id == sid && n.primary_artifact_id == some aid)) :=
        mem_sortLe.mpr hmfil
      rw [hsort] at hmsort
      rcases List.mem_cons.mp hmsort with hmeq | hmtail
      · rw [hmeq]
      · have hpair := pairwise_sortLe byCreatedDesc_trans byCreatedDesc_total
          (db.nodes.filter
            (fun n => n.session_id == sid && n.primary_artifact_id == some aid))
        rw [hsort] at hpair
        have := (List.pairwise_cons.mp hpair).1 m hmtail
        unfold byCreatedDesc at this
        exact decide_eq_true_eq.mp this

/-- Witness for the amended C3: in a database whose only node producing
`"a1"` belongs to session `"s1"`, the session-scoped lookup queried for
session `"s2"` returns `None`. -/
theorem claim_C3_amended_witness :
    infer_parent_node_id exDBCross "s2" "a1" = none :=
  (claim_C3_amended_session_scoped_inference exDBCross "s2" "a1").1 (by decide)

/-! ## Claim C8 -/

/-- C8: the artifact-serving endpoint serves a file only if the stored
location, after path resolution, lies under the configured storage root;
any artifact whose resolved location escapes the root is refused with 403,
regardless of how the location was produced. -/
theorem claim_C8_serving_contained_under_root
    (db : MetaDB) (cwd : List String) (artifactsDir : PyPath)
    (fileExists : PyPath → Bool) (aid : String) :
    (∀ p, fetch_artifact db cwd artifactsDir fileExists aid = .served p →
        ∃ art, getArtifact db aid = some art ∧ p = pathOfString art.uri
          ∧ safe_under cwd artifactsDir p = true)
    ∧ (∀ art, getArtifact db aid = some art →
        safe_under cwd artifactsDir (pathOfString art.uri) = false →
        fetch_artifact db cwd artifactsDir fileExists aid = .forbidden) := by
  constructor
  · intro p hp
    unfold fetch_artifact at hp
    cases hart : getArtifact db aid with
    | none => rw [hart] at hp; exact absurd hp (by simp)
    | some art =>
      rw [hart] at hp
      dsimp only at hp
      by_cases hsafe : safe_under cwd artifactsDir (pathOfString art.uri)
      · by_cases hex : fileExists (pathOfString art.uri)
        · rw [hsafe, hex] at hp
          simp only [Bool.not_true, Bool.false_eq_true, if_false] at hp
          have hpp : pathOfString art.uri = p := by
            simpa using hp
          exact ⟨art, rfl, hpp.symm, hpp ▸ hsafe⟩
        · rw [Bool.not_eq_true] at hex
          rw [hsafe, hex] at hp
          simp at hp
      · rw [Bool.not_eq_true] at hsafe
        rw [hsafe] at hp
        simp at hp
  · intro art hart hsafe
    unfold fetch_artifact
    rw [hart]
    dsimp only
    rw [hsafe]
    rfl

def exEscapingArtifact : ArtifactRow :=
  { artifact_id := "evil", kind := "table", format := "parquet",
    uri := "/srv/data/artifacts/../../../etc/passwd", bytes := 1, rows := 0,
    cols := 0, created_at := 1, session_id := "s1" }

def exDBEscape : MetaDB :=
  { sessions := [], artifacts := [exEscapingArtifact], nodes := [] }

/-- Witness for C8: an artifact whose stored location resolves (through
`..` traversal) outside `/srv/data/artifacts` is refused with 403. -/
theorem claim_C8_witness :
    fetch_artifact exDBEscape ["srv"]
      { absolute := true, parts := ["srv", "data", "artifacts"] }
      (fun _ => true) "evil" = .forbidden :=
  (claim_C8_serving_contained_under_root exDBEscape ["srv"]
      { absolute := true, parts := ["srv", "data", "artifacts"] }
      (fun _ => true) "evil").2
    exEscapingArtifact (by rfl) (by decide)

/-! ## Claim C2 -/

theorem fsGet_put_self (fs : FileSys) (p : FsPath) (b : Bytes) :
    fsGet (fsPut fs p b) p = some b := by
  unfold fsGet fsPut
  simp [List.find?]

theorem find?_filter_ne (p q : FsPath) (h : p ≠ q) :
    ∀ l : List (FsPath × Bytes),
      (l.filter (fun e => e.1 != q)).find? (fun e => e.1 == p)
        = l.find? (fun e => e.1 == p) := by
  intro l
  induction l with
  | nil => rfl
  | cons x xs ih =>
    by_cases hxp : x.1 = p
    · have h₁ : (x.1 != q) = true := bne_iff_ne.mpr (by rw [hxp]; exact h)
      have h₂ : (x.1 == p) = true := beq_iff_eq.mpr hxp
      simp [List.filter_cons, List.find?, h₁, h₂]
    · have h₂ : (x.1 == p) = false := beq_eq_false_iff_ne.mpr hxp
      by_cases hxq : x.1 = q
      · have h₁ : (x.1 != q) = false := by simp [hxq]
        simp only [List.filter_cons, h₁, Bool.false_eq_true, if_false,
          List.find?, h₂]
        exact ih
      · have h₁ : (x.1 != q) = true := bne_iff_ne.mpr hxq
        simp only [List.filter_cons, h₁, if_true, List.find?, h₂]
        exact ih

theorem fsGet_put_ne (fs : FileSys) (p q : FsPath) (b : Bytes) (h : p ≠ q) :
    fsGet (fsPut fs q b) p = fsGet fs p := by
  unfold fsGet fsPut fsRemove
  have hq : (q == p) = false := beq_eq_false_iff_ne.mpr (Ne.symm h)
  simp only [List.find?, hq]
  rw [find?_filter_ne p q h]

theorem fsGet_remove_ne (fs : FileSys) (p q : FsPath) (h : p ≠ q) :
    fsGet (fsRemove fs q) p = fsGet fs p := by
  unfold fsGet fsRemove
  rw [find?_filter_ne p q h]

theorem fsGet_remove_self (fs : FileSys) (q : FsPath) :
    fsGet (fsRemove fs q) q = none := by
  unfold fsGet fsRemove
  have : (fs.files.filter (fun e => e.1 != q)).find? (fun e => e.1 == q) = none := by
    rw [List.find?_eq_none]
    intro x hx
    have hne := bne_iff_ne.mp (List.mem_filter.mp hx).2
    simp [hne]
  rw [this]
  rfl

/-- C2: storing a file with content `b` twice returns the same artifact
identifier both times, and afterwards the store holds exactly one file for
`b`, at the deterministic sharded destination
`root/digest[0:2]/digest[2:4]/digest.suffix`; the second call discards its
temporary file.  (`dg`, `dst`, `fs₁`, `fs₂` name the digest, destination and
intermediate/final filesystems; the hypotheses pin them to their defining
expressions.) -/
theorem claim_C2_content_store_idempotent
    (root : FsPath) (fs : FileSys) (t₁ t₂ : FsPath) (b : Bytes) (ext dg : String)
    (dst : FsPath) (fs₁ fs₂ : FileSys)
    (hdg : dg = sha256HexOfBytes b)
    (hdst : dst = dst_for root dg ext)
    (hfs₁ : fs₁ = fsMove fs t₁ dst b)
    (hfs₂ : fs₂ = fsRemove (fsPut fs₁ t₂ b) t₂)
    (ht₁ : fsGet fs t₁ = some b)
    (hne₁ : t₁ ≠ dst) (hne₂ : t₂ ≠ dst)
    (hfresh : fsGet fs dst = none)
    (huniq : ∀ e ∈ fs.files, e.2 = b → e.1 = t₁) :
    store_file root fs t₁ ext = .ok dg dst fs₁
    ∧ store_file root (fsPut fs₁ t₂ b) t₂ ext = .ok dg dst fs₂
    ∧ fsGet fs₂ dst = some b
    ∧ fsGet fs₂ t₂ = none
    ∧ fs₂.files.countP (fun e => e.2 == b) = 1 := by
  subst hdg hdst hfs₁ hfs₂
  have hget₁ : fsGet (fsPut (fsMove fs t₁ (dst_for root (sha256HexOfBytes b) ext) b) t₂ b) t₂
      = some b := fsGet_put_self _ _ _
  have hgetdst : fsGet (fsPut (fsMove fs t₁ (dst_for root (sha256HexOfBytes b) ext) b) t₂ b)
      (dst_for root (sha256HexOfBytes b) ext) = some b := by
    rw [fsGet_put_ne _ _ _ _ (Ne.symm hne₂)]
    exact fsGet_put_self _ _ _
  refine ⟨?_, ?_, ?_, ?_, ?_⟩
  · unfold store_file
    rw [ht₁]
    dsimp only
    rw [hfresh]
    rfl
  · unfold store_file
    rw [hget₁]
    dsimp only
    rw [hgetdst]
    rfl
  · rw [fsGet_remove_ne _ _ _ (Ne.symm hne₂)]
    exact hgetdst
  · exact fsGet_remove_self _ _
  · have hbd : ((dst_for root (sha256HexOfBytes b) ext : FsPath) != t₂) = true :=
      bne_iff_ne.mpr (Ne.symm hne₂)
    have h0 : ∀ P : FsPath × Bytes → Bool,
        (∀ e, P e = true → (e.1 != t₁) = true) →
        (fs.files.filter P).countP (fun e => e.2 == b) = 0 := by
      intro P hP
      rw [List.countP_eq_zero]
      intro e he hcontra
      have hm := List.mem_filter.mp he
      exact absurd (huniq e hm.1 (beq_iff_eq.mp hcontra)) (bne_iff_ne.mp (hP e hm.2))
    show (fsRemove (fsPut (fsPut (fsRemove fs t₁) (dst_for root (sha256HexOfBytes b) ext) b) t₂ b) t₂).files.countP (fun e => e.2 == b) = 1
    unfold fsPut fsRemove
    simp only [List.filter_cons, bne_self_eq_false, Bool.false_eq_true, if_false,
      hbd, if_true, List.filter_filter]
    rw [List.countP_cons_of_pos _ _ (by simp), h0]
    intro e hPe
    simp only [Bool.and_eq_true] at hPe
    tauto

def exRoot : FsPath := ["srv", "artifacts"]

def exT1 : FsPath := ["tmp", "t1"]

def exT2 : FsPath := ["tmp", "t2"]

def exBytes : Bytes := [7, 8]

def exFS : FileSys := ⟨[(exT1, exBytes)]⟩

def exDg : String := sha256HexOfBytes exBytes

def exDst : FsPath := dst_for exRoot exDg "parquet"

def exFS1 : FileSys := fsMove exFS exT1 exDst exBytes

def exFS2 : FileSys := fsRemove (fsPut exFS1 exT2 exBytes) exT2

/-- Witness for C2: two parquet ingests of the same two-byte content on a
concrete store agree on the digest and leave exactly one file for it. -/
theorem claim_C2_witness :
    store_file exRoot exFS exT1 "parquet" = .ok exDg exDst exFS1
    ∧ store_file exRoot (fsPut exFS1 exT2 exBytes) exT2 "parquet"
        = .ok exDg exDst exFS2
    ∧ fsGet exFS2 exDst = some exBytes
    ∧ fsGet exFS2 exT2 = none
    ∧ exFS2.files.countP (fun e => e.2 == exBytes) = 1 :=
  claim_C2_content_store_idempotent exRoot exFS exT1 exT2 exBytes "parquet"
    exDg exDst exFS1 exFS2 rfl rfl rfl rfl (by decide) (by decide) (by decide)
    (by decide) (by decide)
